import Mathlib

/-
  Verification development for the ain-helper frequency/ratio calculation core.

  The definitions below are a shallow embedding of the calculation logic of
  `src/common/annualIncome.tsx` (first file variant: `calculateAnnualSales`,
  `parseRatio`, the per-species body of `updateSpeciesField`) together with the
  `totalTimes` formulas of `src/common/fisheriestForm.tsx` and of the unnamed
  schedule component (`src/unnamed/part_000`).

  Modelling conventions:
  * JavaScript numbers are modelled by `JsNum`: NaN, +Infinity, -Infinity, or a
    finite value.  Finite values are exact rationals; IEEE-754 rounding and the
    negative-zero distinction are abstracted away (every computation the claims
    touch is exact decimal/rational arithmetic).
  * JS comparison operators return `false` whenever an operand is NaN;
    `Math.max` and `Math.min` propagate NaN; `x || d` substitutes `d` exactly
    when `x` is falsy (NaN or 0).  The operations on `JsNum` below follow those
    semantics.
  * `parseFloat`/`parseInt` are modelled on the decimal grammar (whitespace,
    optional sign, digits, optional fraction), with prefix semantics and NaN on
    failure.  Exponent notation, the literal string "Infinity" and non-decimal
    `parseInt` radix prefixes are not modelled; no input appearing in the forms
    or in the claims uses them.
  * Rational arithmetic inside executable definitions is spelled through
    `mkRat` / `Rat.divInt` (the kernel-reducible constructors) via the helpers
    `qadd`, `qmul`, `qdiv`; the lemmas `qadd_eq`, `qmul_eq`, `qdiv_eq` prove
    that these are exactly ordinary rational addition, multiplication and
    division, and every theorem statement uses the ordinary operations.
-/

/-- Rational addition, written via `mkRat` so that concrete instances reduce
inside the kernel; `qadd_eq` identifies it with `+` on `ℚ`. -/
def qadd (a b : ℚ) : ℚ := mkRat (a.num * b.den + b.num * a.den) (a.den * b.den)

/-- Rational multiplication via `mkRat`; `qmul_eq` identifies it with `*`. -/
def qmul (a b : ℚ) : ℚ := mkRat (a.num * b.num) (a.den * b.den)

/-- Rational division via `Rat.divInt`; `qdiv_eq` identifies it with `/`
(in particular both send division by zero to zero). -/
def qdiv (a b : ℚ) : ℚ := Rat.divInt (a.num * b.den) (a.den * b.num)

/-- The JavaScript number domain as used by the calculators: NaN, the two
infinities, and exact finite values. -/
inductive JsNum where
  | nan : JsNum
  | inf : JsNum
  | negInf : JsNum
  | fin (q : ℚ) : JsNum
deriving DecidableEq, Repr

namespace JsNum

/-- JS `isNaN` on a number value. -/
def isNaN : JsNum → Bool
  | nan => true
  | _ => false

/-- JS falsiness of a number: NaN and 0 are falsy, everything else truthy. -/
def isFalsy : JsNum → Bool
  | nan => true
  | fin q => decide (q = 0)
  | _ => false

/-- JS `a || d` on numbers: `d` exactly when `a` is falsy. -/
def orDefault (a d : JsNum) : JsNum :=
  if a.isFalsy then d else a

/-- JS `<=` on numbers: false whenever an operand is NaN. -/
def le : JsNum → JsNum → Bool
  | nan, _ => false
  | _, nan => false
  | negInf, _ => true
  | _, negInf => false
  | _, inf => true
  | inf, _ => false
  | fin a, fin b => decide (a ≤ b)

/-- JS `<` on numbers: false whenever an operand is NaN. -/
def lt : JsNum → JsNum → Bool
  | nan, _ => false
  | _, nan => false
  | inf, _ => false
  | _, inf => true
  | _, negInf => false
  | negInf, _ => true
  | fin a, fin b => decide (a < b)

/-- JS `>` on numbers. -/
def gt (a b : JsNum) : Bool := lt b a

/-- JS `>=` on numbers. -/
def ge (a b : JsNum) : Bool := le b a

/-- JS `Math.max` of two numbers (NaN-propagating). -/
def max : JsNum → JsNum → JsNum
  | nan, _ => nan
  | _, nan => nan
  | a, b => if le a b then b else a

/-- JS `Math.min` of two numbers (NaN-propagating). -/
def min : JsNum → JsNum → JsNum
  | nan, _ => nan
  | _, nan => nan
  | a, b => if le a b then a else b

/-- JS multiplication on numbers. -/
def mul : JsNum → JsNum → JsNum
  | nan, _ => nan
  | _, nan => nan
  | fin a, fin b => fin (qmul a b)
  | inf, fin b => if decide (0 < b) then inf else if decide (b < 0) then negInf else nan
  | fin b, inf => if decide (0 < b) then inf else if decide (b < 0) then negInf else nan
  | negInf, fin b => if decide (0 < b) then negInf else if decide (b < 0) then inf else nan
  | fin b, negInf => if decide (0 < b) then negInf else if decide (b < 0) then inf else nan
  | inf, inf => inf
  | negInf, negInf => inf
  | inf, negInf => negInf
  | negInf, inf => negInf

/-- JS division on numbers (negative zero abstracted to zero: a positive
finite value divided by zero yields +Infinity). -/
def div : JsNum → JsNum → JsNum
  | nan, _ => nan
  | _, nan => nan
  | fin a, fin b =>
      if decide (b = 0) then
        if decide (0 < a) then inf else if decide (a < 0) then negInf else nan
      else fin (qdiv a b)
  | fin _, inf => fin 0
  | fin _, negInf => fin 0
  | inf, fin b => if decide (b < 0) then negInf else inf
  | negInf, fin b => if decide (b < 0) then inf else negInf
  | inf, _ => nan
  | negInf, _ => nan

/-- JS `Math.floor`. -/
def floor : JsNum → JsNum
  | fin q => fin (mkRat ⌊q⌋ 1)
  | x => x

/-- Truncation toward zero on a number, the value of `parseInt(String(n), 10)`
for an ordinary finite `n` (`parseInt` of the rendering of NaN or of an
infinity is NaN). -/
def trunc : JsNum → JsNum
  | fin q => fin (mkRat (if q < 0 then ⌈q⌉ else ⌊q⌋) 1)
  | _ => nan

end JsNum

/-- Numeric value of a list of decimal digit characters, most significant
first. -/
def digitsVal (ds : List Char) : ℕ :=
  ds.foldl (fun acc c => acc * 10 + (c.toNat - 48)) 0

/-- JS `String.prototype.trim`: strip whitespace from both ends. -/
def jsTrim (s : String) : String :=
  String.mk (((s.data.dropWhile Char.isWhitespace).reverse.dropWhile
    Char.isWhitespace).reverse)

/-- JS `String.prototype.split` with a single-character separator. -/
def splitOnChar (c : Char) : List Char → List (List Char)
  | [] => [[]]
  | x :: xs =>
    let rest := splitOnChar c xs
    if x = c then [] :: rest
    else
      match rest with
      | r :: rs => (x :: r) :: rs
      | [] => [[x]]

/-- Decimal-grammar parse of a character list: optional sign, digits, optional
point and fraction digits, with prefix semantics (trailing junk ignored) and
NaN when no digit is found.  This is the JS `parseFloat` behaviour on the
decimal fragment (exponents and "Infinity" are out of scope, see header). -/
def parseDecimal (cs : List Char) : JsNum :=
  let signAndRest : ℤ × List Char :=
    match cs with
    | '-' :: rest => (-1, rest)
    | '+' :: rest => (1, rest)
    | _ => (1, cs)
  let intPart := signAndRest.2.takeWhile Char.isDigit
  let afterInt := signAndRest.2.dropWhile Char.isDigit
  let fracPart : List Char :=
    match afterInt with
    | '.' :: r => r.takeWhile Char.isDigit
    | _ => []
  if intPart.isEmpty && fracPart.isEmpty then JsNum.nan
  else
    JsNum.fin (mkRat
      (signAndRest.1 * ((digitsVal intPart * 10 ^ fracPart.length + digitsVal fracPart : ℕ) : ℤ))
      (10 ^ fracPart.length))

/-- JS `parseFloat` on a string: skip leading whitespace, then parse a decimal
prefix. -/
def jsParseFloat (s : String) : JsNum :=
  parseDecimal (s.data.dropWhile Char.isWhitespace)

/-- JS `parseInt(·, 10)` on a string: skip leading whitespace, optional sign,
then the longest digit prefix; NaN when no digit is found. -/
def jsParseInt (s : String) : JsNum :=
  let cs := s.data.dropWhile Char.isWhitespace
  let signAndRest : ℤ × List Char :=
    match cs with
    | '-' :: rest => (-1, rest)
    | '+' :: rest => (1, rest)
    | _ => (1, cs)
  let ds := signAndRest.2.takeWhile Char.isDigit
  if ds.isEmpty then JsNum.nan
  else JsNum.fin (mkRat (signAndRest.1 * (digitsVal ds : ℤ)) 1)

/-- A `string | number` value as received by `updateSpeciesField`.  The form
handlers pass the raw input string; the frequency modal passes numbers. -/
inductive Value where
  | str (s : String) : Value
  | num (n : JsNum) : Value
deriving DecidableEq, Repr

/-- `parseFloat(String(value))` for a `string | number` value.  For a number
`n`, JS guarantees that `String(n)` renders `n` exactly and parses back to it
(`String(NaN) = "NaN"` and `String(Infinity) = "Infinity"` also round-trip),
so the composite is the identity on numbers. -/
def valueParseFloat : Value → JsNum
  | .str s => jsParseFloat s
  | .num n => n

/-- `parseInt(String(value), 10)` for a `string | number` value; on a finite
number this truncates toward zero, on NaN or an infinity it yields NaN. -/
def valueParseInt : Value → JsNum
  | .str s => jsParseInt s
  | .num n => JsNum.trunc n

/-- The `FrequencyType` union of `annualIncome.tsx`. -/
inductive FrequencyType where
  | perMonth : FrequencyType
  | perWeek : FrequencyType
  | everyXMonths : FrequencyType
  | everyXWeeks : FrequencyType
  | once : FrequencyType
  | perYear : FrequencyType
deriving DecidableEq, Repr

/-- The `SpeciesData` record of `annualIncome.tsx` (first variant).  The `id`
field is omitted: it only identifies the row inside the React list state and
none of the per-field update logic reads it. -/
structure SpeciesData where
  name : String
  frequencyType : FrequencyType
  frequencyValue : JsNum
  everyXValue : JsNum
  monthsMarked : JsNum
  freshVolume : JsNum
  freshPrice : JsNum
  ratioInput : String
  freshToDryRatio : JsNum
  driedVolume : JsNum
  driedPrice : JsNum
  consumedVolume : JsNum
  processedVolume : JsNum
deriving DecidableEq, Repr

/-- The `initialSpeciesData` constant of `annualIncome.tsx`. -/
def initialSpeciesData : SpeciesData where
  name := ""
  frequencyType := .perYear
  frequencyValue := .fin 2
  everyXValue := .fin 1
  monthsMarked := .fin 12
  freshVolume := .fin 0
  freshPrice := .fin 0
  ratioInput := "5"
  freshToDryRatio := .fin 5
  driedVolume := .fin 0
  driedPrice := .fin 0
  consumedVolume := .fin 0
  processedVolume := .fin 0

/-- The `parseRatio` helper of `annualIncome.tsx` (first variant): a trimmed
input containing a colon is split and accepted as `fresh : dry` when both
sides parse with `dry > 0` and `fresh >= 0`; otherwise a bare input is
accepted when it parses to a positive number; every other input falls back to
the default ratio `1`. -/
def parseRatio (input : String) : JsNum :=
  let trimmed := jsTrim input
  if trimmed.data.any (fun c => c == ':') then
    let parts := (splitOnChar ':' trimmed.data).map String.mk
    if parts.length = 2 then
      let freshPart := jsParseFloat parts[0]!
      let dryPart := jsParseFloat parts[1]!
      if !freshPart.isNaN && !dryPart.isNaN && JsNum.gt dryPart (.fin 0) &&
          JsNum.ge freshPart (.fin 0) then
        JsNum.div freshPart dryPart
      else .fin 1
    else .fin 1
  else
    let num := jsParseFloat trimmed
    if !num.isNaN && JsNum.gt num (.fin 0) then num else .fin 1

/-- The `parseRatio` helper of the second file variant in `annualIncome.tsx`
(line 798): identical grammar, but the fallback value is `Infinity` rather
than `1`.  It is not wired to the `ratioInput` update path (the second
variant's `updateSpeciesField` has no `ratioInput` case). -/
def parseRatioV2 (input : String) : JsNum :=
  let trimmed := jsTrim input
  if trimmed.data.any (fun c => c == ':') then
    let parts := (splitOnChar ':' trimmed.data).map String.mk
    if parts.length = 2 then
      let freshPart := jsParseFloat parts[0]!
      let dryPart := jsParseFloat parts[1]!
      if !freshPart.isNaN && !dryPart.isNaN && JsNum.gt dryPart (.fin 0) &&
          JsNum.ge freshPart (.fin 0) then
        JsNum.div freshPart dryPart
      else .inf
    else .inf
  else
    let num := jsParseFloat trimmed
    if !num.isNaN && JsNum.gt num (.fin 0) then num else .inf

/-- `CONFIG.NUMBER_OF_WEEKS_PER_MONTH` from `utils` (App.tsx): `52/12`.
`calculateAnnualSales` reads it through `CONFIG?.… ?? (52/12)`, which yields
this same value. -/
def weeksPerMonth : JsNum := .fin (mkRat 52 12)

/-- The `calculateAnnualSales` helper of `annualIncome.tsx`: clamps
`monthsMarked` into `[1,12]` (empty/NaN defaulting to 12) and the two count
fields to at least 1 (empty/NaN defaulting to 1), then dispatches on the
frequency type. -/
def calculateAnnualSales (species : SpeciesData) : JsNum :=
  let validMonths :=
    JsNum.max (.fin 1) (JsNum.min (.fin 12) (species.monthsMarked.orDefault (.fin 12)))
  let val := JsNum.max (.fin 1) (species.frequencyValue.orDefault (.fin 1))
  let xVal := JsNum.max (.fin 1) (species.everyXValue.orDefault (.fin 1))
  match species.frequencyType with
  | .once => .fin 1
  | .perYear => val
  | .perMonth => JsNum.mul val validMonths
  | .perWeek => JsNum.mul (JsNum.mul val validMonths) weeksPerMonth
  | .everyXMonths =>
      if JsNum.le xVal (.fin 0) then .fin 0
      else if JsNum.ge validMonths xVal then JsNum.floor (JsNum.div validMonths xVal)
      else .fin 0
  | .everyXWeeks =>
      if JsNum.le xVal (.fin 0) then .fin 0
      else
        let totalWeeksInMarkedMonths := JsNum.mul validMonths weeksPerMonth
        if JsNum.ge totalWeeksInMarkedMonths xVal then
          JsNum.floor (JsNum.div totalWeeksInMarkedMonths xVal)
        else .fin 0

/-- `Number.EPSILON`, exactly `2 ^ (-52)`. -/
def jsEpsilon : ℚ := mkRat 1 (2 ^ 52)

/-- JS `Math.round`: floor of `x + 1/2` (ties toward positive infinity). -/
def jsRound (q : ℚ) : ℤ := ⌊qadd q (mkRat 1 2)⌋

/-- Insert the en-PH thousands separator into a reversed digit list: a comma
after every three digits. -/
def commaGroupRev : List Char → List Char
  | c1 :: c2 :: c3 :: c4 :: rest => c1 :: c2 :: c3 :: ',' :: commaGroupRev (c4 :: rest)
  | l => l

/-- Decimal digits of a natural number, most significant first. -/
def natDigits (n : ℕ) : List Char := Nat.toDigits 10 n

/-- Strip trailing `'0'` characters (used for `minimumFractionDigits: 0`). -/
def stripTrailingZeros (cs : List Char) : List Char :=
  (cs.reverse.dropWhile (fun c => c == '0')).reverse

/-- The `formatNumber` helper from `utils` (App.tsx): NaN renders as "0";
otherwise the value is rounded to `decimals` places (after adding
`Number.EPSILON`) and rendered in the en-PH locale with no minimum fraction
digits.  Negative zero is abstracted to zero, per the header conventions. -/
def formatNumber (num : JsNum) (decimals : ℕ) : String :=
  match num with
  | .nan => "0"
  | .inf => "∞"
  | .negInf => "-∞"
  | .fin q =>
    let scaled : ℤ := jsRound (qmul (qadd q jsEpsilon) (mkRat (10 ^ decimals) 1))
    let n := scaled.natAbs
    let ip := n / 10 ^ decimals
    let fp := n % 10 ^ decimals
    let ipStr := String.mk ((commaGroupRev (natDigits ip).reverse).reverse)
    let fracDigits :=
      stripTrailingZeros
        (List.replicate (decimals - (natDigits fp).length) '0' ++ natDigits fp)
    let fpStr := if fp = 0 then "" else "." ++ String.mk fracDigits
    (if scaled < 0 then "-" else "") ++ ipStr ++ fpStr

/-- One `updateSpeciesField` invocation, as a typed command: the field name
together with the raw `string | number` payload (`String` for the two fields
the source feeds through `String(value)` only, the parsed `FrequencyType` for
the type selector). -/
inductive FieldUpdate where
  | frequencyType (v : FrequencyType) : FieldUpdate
  | frequencyValue (v : Value) : FieldUpdate
  | everyXValue (v : Value) : FieldUpdate
  | monthsMarked (v : Value) : FieldUpdate
  | freshVolume (v : Value) : FieldUpdate
  | ratioInput (v : String) : FieldUpdate
  | driedVolume (v : Value) : FieldUpdate
  | freshPrice (v : Value) : FieldUpdate
  | driedPrice (v : Value) : FieldUpdate
  | consumedVolume (v : Value) : FieldUpdate
  | processedVolume (v : Value) : FieldUpdate
  | name (v : String) : FieldUpdate
deriving DecidableEq, Repr

/-- The per-species body of `updateSpeciesField` in `annualIncome.tsx`
(first variant): the `switch (field)` statement applied to one species
record. -/
def updateSpeciesField (species : SpeciesData) : FieldUpdate → SpeciesData
  | .frequencyType v => { species with frequencyType := v }
  | .frequencyValue v =>
      let n := (valueParseInt v).orDefault (.fin 0)
      { species with frequencyValue := JsNum.max (.fin 1) n }
  | .everyXValue v =>
      let n := (valueParseInt v).orDefault (.fin 0)
      { species with everyXValue := JsNum.max (.fin 1) n }
  | .monthsMarked v =>
      let n := (valueParseInt v).orDefault (.fin 0)
      { species with monthsMarked := JsNum.max (.fin 1) (JsNum.min (.fin 12) n) }
  | .freshVolume v =>
      let numValue := (valueParseFloat v).orDefault (.fin 0)
      { species with
          freshVolume := numValue
          driedVolume :=
            if JsNum.gt species.freshToDryRatio (.fin 0) &&
                !decide (species.freshToDryRatio = JsNum.inf) then
              JsNum.div numValue species.freshToDryRatio
            else .fin 0 }
  | .ratioInput v =>
      let newNumericRatio := parseRatio v
      { species with
          ratioInput := v
          freshToDryRatio := newNumericRatio
          driedVolume :=
            if JsNum.gt newNumericRatio (.fin 0) &&
                !decide (newNumericRatio = JsNum.inf) then
              JsNum.div species.freshVolume newNumericRatio
            else .fin 0 }
  | .driedVolume v =>
      let driedNumValue := (valueParseFloat v).orDefault (.fin 0)
      if JsNum.gt driedNumValue (.fin 0) && JsNum.gt species.freshVolume (.fin 0) then
        let calculatedRatio := JsNum.div species.freshVolume driedNumValue
        { species with
            driedVolume := driedNumValue
            freshToDryRatio := calculatedRatio
            ratioInput := formatNumber calculatedRatio 1 ++ ":1" }
      else if JsNum.gt driedNumValue (.fin 0) && JsNum.le species.freshVolume (.fin 0) then
        { species with
            driedVolume := driedNumValue
            freshToDryRatio := JsNum.inf }
      else if JsNum.le driedNumValue (.fin 0) then
        { species with
            driedVolume := driedNumValue
            freshToDryRatio := parseRatio species.ratioInput }
      else
        { species with driedVolume := driedNumValue }
  | .freshPrice v => { species with freshPrice := (valueParseFloat v).orDefault (.fin 0) }
  | .driedPrice v => { species with driedPrice := (valueParseFloat v).orDefault (.fin 0) }
  | .consumedVolume v =>
      { species with consumedVolume := (valueParseFloat v).orDefault (.fin 0) }
  | .processedVolume v =>
      { species with processedVolume := (valueParseFloat v).orDefault (.fin 0) }
  | .name v => { species with name := v }

/-- `NUMBER_OF_WEEKS_PER_MONTH` as hard-coded in `fisheriestForm.tsx` and in
`src/unnamed/part_000`: `4.33` (not the `52/12` that `annualIncome.tsx` reads
from `CONFIG`). -/
def scheduleWeeksPerMonth : ℚ := 433 / 100

/-- The frequency union of the two schedule components (it has no `perYear`
member). -/
inductive ScheduleFrequencyType where
  | perMonth : ScheduleFrequencyType
  | perWeek : ScheduleFrequencyType
  | everyXMonths : ScheduleFrequencyType
  | everyXWeeks : ScheduleFrequencyType
  | once : ScheduleFrequencyType
deriving DecidableEq, Repr

/-- The `totalTimes` formula of `fisheriestForm.tsx`: every-X-months is
simplified to once per marked month, every-X-weeks uses `Math.ceil` with
`everyXValue || 1`, and weeks-per-month is 4.33.  The component state holds
plain numbers; they are modelled as exact rationals. -/
def fisheriesTotalTimes (frequencyType : ScheduleFrequencyType)
    (frequencyValue everyXValue monthsMarked : ℚ) : ℚ :=
  match frequencyType with
  | .once => 1
  | .perMonth => frequencyValue * monthsMarked
  | .perWeek => frequencyValue * monthsMarked * scheduleWeeksPerMonth
  | .everyXMonths => monthsMarked
  | .everyXWeeks =>
      ((⌈monthsMarked * scheduleWeeksPerMonth /
          (if everyXValue = 0 then 1 else everyXValue)⌉ : ℤ) : ℚ)

/-- The `totalTimes` formula of the unnamed schedule component
(`src/unnamed/part_000`): `Math.ceil` for both every-X kinds, weeks-per-month
4.33, and no zero guard on `everyXValue` (the claims only evaluate it at
nonzero intervals). -/
def scheduleTotalTimes (frequencyType : ScheduleFrequencyType)
    (frequencyValue everyXValue monthsMarked : ℚ) : ℚ :=
  match frequencyType with
  | .once => 1
  | .perMonth => frequencyValue * monthsMarked
  | .perWeek => frequencyValue * monthsMarked * scheduleWeeksPerMonth
  | .everyXMonths => ((⌈monthsMarked / everyXValue⌉ : ℤ) : ℚ)
  | .everyXWeeks => ((⌈monthsMarked * scheduleWeeksPerMonth / everyXValue⌉ : ℤ) : ℚ)

/-- The clamped frequency invariant from the spec data model: a finite
`frequencyValue >= 1`, a finite `everyXValue >= 1`, and a finite
`monthsMarked` in `[1, 12]`. -/
def freqInvariant (s : SpeciesData) : Prop :=
  (∃ v : ℚ, s.frequencyValue = .fin v ∧ 1 ≤ v) ∧
  (∃ x : ℚ, s.everyXValue = .fin x ∧ 1 ≤ x) ∧
  (∃ m : ℚ, s.monthsMarked = .fin m ∧ 1 ≤ m ∧ m ≤ 12)

/-- Species states reachable from the initial row through the update path. -/
inductive Reachable : SpeciesData → Prop where
  | init : Reachable initialSpeciesData
  | step (s : SpeciesData) (f : FieldUpdate) :
      Reachable s → Reachable (updateSpeciesField s f)

/-- Derived-field consistency for the ratio propagator: `driedVolume` equals
what the fresh-volume recomputation would derive from the current
`freshVolume` and `freshToDryRatio`. -/
def ratioConsistent (s : SpeciesData) : Prop :=
  s.driedVolume =
    if JsNum.gt s.freshToDryRatio (.fin 0) &&
        !decide (s.freshToDryRatio = JsNum.inf) then
      JsNum.div s.freshVolume s.freshToDryRatio
    else .fin 0

/-- The state reached from the initial row by setting fresh volume to 100 and
then editing dried volume to 0: the ratio is recomputed from the stored
textual input (`"5"`, hence 5) while the dried volume stays 0, so the state is
no longer ratio-consistent. -/
def c5state : SpeciesData :=
  updateSpeciesField
    (updateSpeciesField initialSpeciesData (.freshVolume (.str "100")))
    (.driedVolume (.str "0"))

/-- The state reached from the initial row (fresh weight 0) by editing dried
weight to 7. -/
def c6state : SpeciesData :=
  updateSpeciesField initialSpeciesData (.driedVolume (.str "7"))

/-- A clamped spec selling every 2 months over 6 active months, in the
`annualIncome.tsx` data model. -/
def claim9specA : SpeciesData :=
  { initialSpeciesData with
      frequencyType := .everyXMonths
      everyXValue := .fin 2
      monthsMarked := .fin 6 }

/-- A clamped spec selling every 4 months over 6 active months. -/
def claim9specB : SpeciesData :=
  { initialSpeciesData with
      frequencyType := .everyXMonths
      everyXValue := .fin 4
      monthsMarked := .fin 6 }

/-- A clamped spec selling every 5 weeks over 1 active month. -/
def claim9specC : SpeciesData :=
  { initialSpeciesData with
      frequencyType := .everyXWeeks
      everyXValue := .fin 5
      monthsMarked := .fin 1 }

theorem qadd_eq (a b : ℚ) : qadd a b = a + b := by
  rw [qadd, Rat.add_def, Rat.normalize_eq_mkRat]

theorem qmul_eq (a b : ℚ) : qmul a b = a * b := by
  rw [qmul, Rat.mul_def, Rat.normalize_eq_mkRat]

theorem qdiv_eq (a b : ℚ) : qdiv a b = a / b := by
  rcases eq_or_ne b 0 with hb | hb
  · subst hb; simp [qdiv, Rat.divInt_eq_div]
  · have hbn : b.num ≠ 0 := Rat.num_ne_zero.mpr hb
    have had : (a.den : ℚ) ≠ 0 := by positivity
    have hbd : (b.den : ℚ) ≠ 0 := by positivity
    have hbnq : (b.num : ℚ) ≠ 0 := Int.cast_ne_zero.mpr hbn
    have ha' : (a.num : ℚ) = a * a.den := (div_eq_iff had).mp (Rat.num_div_den a)
    have hb' : (b.num : ℚ) = b * b.den := (div_eq_iff hbd).mp (Rat.num_div_den b)
    rw [qdiv, Rat.divInt_eq_div]
    push_cast
    rw [div_eq_div_iff (mul_ne_zero had hbnq) hb, ha', hb']
    ring

namespace JsNum

theorem orDefault_fin {q : ℚ} (d : JsNum) (h : q ≠ 0) :
    (fin q).orDefault d = fin q := by
  simp [orDefault, isFalsy, h]

theorem le_fin (a b : ℚ) : le (fin a) (fin b) = decide (a ≤ b) := rfl

theorem lt_fin (a b : ℚ) : lt (fin a) (fin b) = decide (a < b) := rfl

theorem gt_fin (a b : ℚ) : gt (fin a) (fin b) = decide (b < a) := rfl

theorem ge_fin (a b : ℚ) : ge (fin a) (fin b) = decide (b ≤ a) := rfl

theorem max_fin (a b : ℚ) : max (fin a) (fin b) = fin (Max.max a b) := by
  show (if le (fin a) (fin b) then fin b else fin a) = fin (Max.max a b)
  by_cases h : a ≤ b
  · simp [le_fin, h, max_eq_right h]
  · simp [le_fin, h, max_eq_left (le_of_not_le h)]

theorem min_fin (a b : ℚ) : min (fin a) (fin b) = fin (Min.min a b) := by
  show (if le (fin a) (fin b) then fin a else fin b) = fin (Min.min a b)
  by_cases h : a ≤ b
  · simp [le_fin, h, min_eq_left h]
  · simp [le_fin, h, min_eq_right (le_of_not_le h)]

theorem mul_fin (a b : ℚ) : mul (fin a) (fin b) = fin (a * b) := by
  show fin (qmul a b) = fin (a * b)
  rw [qmul_eq]

theorem div_fin {b : ℚ} (a : ℚ) (h : b ≠ 0) :
    div (fin a) (fin b) = fin (a / b) := by
  show (if decide (b = 0) then _ else fin (qdiv a b)) = fin (a / b)
  simp [h, qdiv_eq]

theorem floor_fin (q : ℚ) : floor (fin q) = fin ((⌊q⌋ : ℤ) : ℚ) := by
  show fin (mkRat ⌊q⌋ 1) = fin ((⌊q⌋ : ℤ) : ℚ)
  rw [Rat.mkRat_one]

end JsNum

/-- The clamped `validMonths` expression is the identity on a finite value
already inside `[1, 12]`. -/
theorem clampMonths_eq {m : ℚ} (h1 : 1 ≤ m) (h2 : m ≤ 12) :
    JsNum.max (.fin 1) (JsNum.min (.fin 12) ((JsNum.fin m).orDefault (.fin 12))) =
      .fin m := by
  have hm0 : m ≠ 0 := by intro h; rw [h] at h1; norm_num at h1
  rw [JsNum.orDefault_fin _ hm0, JsNum.min_fin, JsNum.max_fin,
    min_eq_right h2, max_eq_right h1]

/-- The clamped `val`/`xVal` expression is the identity on a finite value
that is at least 1. -/
theorem clampVal_eq {v : ℚ} (h1 : 1 ≤ v) :
    JsNum.max (.fin 1) ((JsNum.fin v).orDefault (.fin 1)) = .fin v := by
  have hv0 : v ≠ 0 := by intro h; rw [h] at h1; norm_num at h1
  rw [JsNum.orDefault_fin _ hv0, JsNum.max_fin, max_eq_right h1]

/-- `CONFIG.NUMBER_OF_WEEKS_PER_MONTH` is the rational `52/12`. -/
theorem weeksPerMonth_eq : weeksPerMonth = .fin (52 / 12) := by
  rw [weeksPerMonth, Rat.mkRat_eq_divInt, Rat.divInt_eq_div]
  norm_num

/-- Claim C1: for a `FrequencySpec` satisfying the clamped invariant
(`value >= 1`, `activeMonths` in `[1,12]`), `calculateAnnualSales` returns 1
for `once` (for any state at all, so in particular regardless of
`activeMonths`), `value` for `perYear`, `value * activeMonths` for `perMonth`,
and `value * activeMonths * (52/12)` for `perWeek`, `52/12` being the
configured weeks-per-month constant. -/
theorem claim1_annual_sales_simple_kinds :
    (∀ s : SpeciesData, s.frequencyType = .once → calculateAnnualSales s = .fin 1) ∧
    (∀ (s : SpeciesData) (v m : ℚ),
      s.frequencyValue = .fin v → 1 ≤ v →
      s.monthsMarked = .fin m → 1 ≤ m → m ≤ 12 →
      (s.frequencyType = .perYear → calculateAnnualSales s = .fin v) ∧
      (s.frequencyType = .perMonth → calculateAnnualSales s = .fin (v * m)) ∧
      (s.frequencyType = .perWeek →
        calculateAnnualSales s = .fin (v * m * (52 / 12)))) := by
  constructor
  · intro s h
    simp only [calculateAnnualSales, h]
  · intro s v m hv h1v hm h1m h12m
    refine ⟨fun ht => ?_, fun ht => ?_, fun ht => ?_⟩ <;>
      simp only [calculateAnnualSales, ht, hv, hm, clampVal_eq h1v,
        clampMonths_eq h1m h12m, weeksPerMonth_eq, JsNum.mul_fin]

/-- Witness for C1 at the spec's own example: two sales per month over six
active months give twelve annual sales. -/
theorem claim1_witness :
    calculateAnnualSales
      { initialSpeciesData with
          frequencyType := .perMonth
          frequencyValue := .fin 2
          monthsMarked := .fin 6 } = .fin 12 := by
  have h := (claim1_annual_sales_simple_kinds.2
    { initialSpeciesData with
        frequencyType := .perMonth
        frequencyValue := .fin 2
        monthsMarked := .fin 6 }
    2 6 rfl (by norm_num) rfl (by norm_num) (by norm_num)).2.1 rfl
  rw [h]; norm_num

/-- Claim C2: for a clamped spec with `everyX >= 1` and `activeMonths` in
`[1,12]`, `calculateAnnualSales` computes `floor(activeMonths / everyX)` for
`everyXMonths` when `activeMonths >= everyX` and 0 otherwise, and
`floor(activeMonths * (52/12) / everyX)` for `everyXWeeks` when
`activeMonths * (52/12) >= everyX` and 0 otherwise. -/
theorem claim2_annual_sales_interval_kinds :
    ∀ (s : SpeciesData) (x m : ℚ),
      s.everyXValue = .fin x → 1 ≤ x →
      s.monthsMarked = .fin m → 1 ≤ m → m ≤ 12 →
      (s.frequencyType = .everyXMonths →
        calculateAnnualSales s =
          if x ≤ m then .fin ((⌊m / x⌋ : ℤ) : ℚ) else .fin 0) ∧
      (s.frequencyType = .everyXWeeks →
        calculateAnnualSales s =
          if x ≤ m * (52 / 12) then .fin ((⌊m * (52 / 12) / x⌋ : ℤ) : ℚ)
          else .fin 0) := by
  intro s x m hx h1x hm h1m h12m
  have hx0 : x ≠ 0 := by intro h; rw [h] at h1x; norm_num at h1x
  have hxle : JsNum.le (.fin x) (.fin 0) = false := by
    rw [JsNum.le_fin, decide_eq_false_iff_not]
    intro h; linarith
  constructor
  · intro ht
    simp only [calculateAnnualSales, ht, hx, hm, clampVal_eq h1x,
      clampMonths_eq h1m h12m, hxle, Bool.false_eq_true, if_false,
      JsNum.ge_fin]
    by_cases hc : x ≤ m
    · rw [if_pos (by simpa using hc), if_pos hc, JsNum.div_fin _ hx0,
        JsNum.floor_fin]
    · rw [if_neg (by simpa using hc), if_neg hc]
  · intro ht
    simp only [calculateAnnualSales, ht, hx, hm, clampVal_eq h1x,
      clampMonths_eq h1m h12m, hxle, Bool.false_eq_true, if_false,
      weeksPerMonth_eq, JsNum.mul_fin, JsNum.ge_fin]
    by_cases hc : x ≤ m * (52 / 12)
    · rw [if_pos (by simpa using hc), if_pos hc, JsNum.div_fin _ hx0,
        JsNum.floor_fin]
    · rw [if_neg (by simpa using hc), if_neg hc]

/-- Witness for C2 at the spec's examples: every 2 months over 6 active
months gives 3 sales; every 4 months over 3 active months gives 0. -/
theorem claim2_witness :
    calculateAnnualSales
      { initialSpeciesData with
          frequencyType := .everyXMonths
          everyXValue := .fin 2
          monthsMarked := .fin 6 } = .fin 3 ∧
    calculateAnnualSales
      { initialSpeciesData with
          frequencyType := .everyXMonths
          everyXValue := .fin 4
          monthsMarked := .fin 3 } = .fin 0 := by
  constructor
  · have h := (claim2_annual_sales_interval_kinds
      { initialSpeciesData with
          frequencyType := .everyXMonths
          everyXValue := .fin 2
          monthsMarked := .fin 6 }
      2 6 rfl (by norm_num) rfl (by norm_num) (by norm_num)).1 rfl
    rw [h, if_pos (by norm_num)]
    norm_num
  · have h := (claim2_annual_sales_interval_kinds
      { initialSpeciesData with
          frequencyType := .everyXMonths
          everyXValue := .fin 4
          monthsMarked := .fin 3 }
      4 3 rfl (by norm_num) rfl (by norm_num) (by norm_num)).1 rfl
    rw [h, if_neg (by norm_num)]

/-- `parseFloat` never produces an infinity in the decimal fragment: the
result is NaN or finite. -/
theorem jsParseFloat_nan_or_fin (s : String) :
    jsParseFloat s = .nan ∨ ∃ q : ℚ, jsParseFloat s = .fin q := by
  simp only [jsParseFloat, parseDecimal]
  split
  · exact Or.inl rfl
  · exact Or.inr ⟨_, rfl⟩

theorem getBang_two_zero (x y : String) : ([x, y])[0]! = x := rfl

theorem getBang_two_one (x y : String) : ([x, y])[1]! = y := rfl

/-- Evaluation of `parseRatio` when the trimmed input has no colon. -/
theorem parseRatio_noColon (str : String)
    (hc : (jsTrim str).data.any (fun c => c == ':') = false) :
    parseRatio str =
      if !(jsParseFloat (jsTrim str)).isNaN &&
          JsNum.gt (jsParseFloat (jsTrim str)) (.fin 0) then
        jsParseFloat (jsTrim str)
      else .fin 1 := by
  simp only [parseRatio, hc, Bool.false_eq_true, if_false]

/-- Evaluation of `parseRatio` when the trimmed input contains a colon and
splits into exactly two parts. -/
theorem parseRatio_colon2 (str : String) (a b : List Char)
    (hc : (jsTrim str).data.any (fun c => c == ':') = true)
    (hl : splitOnChar ':' (jsTrim str).data = [a, b]) :
    parseRatio str =
      if !(jsParseFloat (String.mk a)).isNaN &&
          !(jsParseFloat (String.mk b)).isNaN &&
          JsNum.gt (jsParseFloat (String.mk b)) (.fin 0) &&
          JsNum.ge (jsParseFloat (String.mk a)) (.fin 0) then
        JsNum.div (jsParseFloat (String.mk a)) (jsParseFloat (String.mk b))
      else .fin 1 := by
  simp only [parseRatio, hc, if_true, hl, List.map_cons, List.map_nil,
    List.length_cons, List.length_nil, getBang_two_zero, getBang_two_one]

/-- Evaluation of `parseRatio` when the trimmed input contains a colon but
does not split into exactly two parts: the default ratio 1. -/
theorem parseRatio_colonBad (str : String)
    (hc : (jsTrim str).data.any (fun c => c == ':') = true)
    (hlen : (splitOnChar ':' (jsTrim str).data).length ≠ 2) :
    parseRatio str = .fin 1 := by
  have hlen' : ((splitOnChar ':' (jsTrim str).data).map String.mk).length ≠ 2 := by
    simpa using hlen
  simp only [parseRatio, hc, if_true, hlen', if_false]

/-- `parseRatio` always produces a finite value (its fallback is the default
ratio 1, a bare parse is only accepted when positive and finite, and a colon
parse divides a finite numerator by a finite positive denominator). -/
theorem parseRatio_fin (str : String) : ∃ q : ℚ, parseRatio str = .fin q := by
  by_cases hc : (jsTrim str).data.any (fun c => c == ':') = true
  · rcases hl : splitOnChar ':' (jsTrim str).data with _ | ⟨a, rest⟩
    · exact ⟨1, parseRatio_colonBad str hc (by rw [hl]; simp only [List.length_cons, List.length_nil]; omega)⟩
    · rcases rest with _ | ⟨b, rest2⟩
      · exact ⟨1, parseRatio_colonBad str hc (by rw [hl]; simp only [List.length_cons, List.length_nil]; omega)⟩
      · rcases rest2 with _ | ⟨c, rest3⟩
        · rw [parseRatio_colon2 str a b hc hl]
          rcases jsParseFloat_nan_or_fin (String.mk a) with hna | ⟨qa, hqa⟩
          · refine ⟨1, ?_⟩
            rw [hna]
            simp [JsNum.isNaN]
          · rcases jsParseFloat_nan_or_fin (String.mk b) with hnb | ⟨qb, hqb⟩
            · refine ⟨1, ?_⟩
              rw [hqa, hnb]
              simp [JsNum.isNaN]
            · rw [hqa, hqb]
              by_cases hqb0 : 0 < qb
              · by_cases hqa0 : 0 ≤ qa
                · refine ⟨qa / qb, ?_⟩
                  simp only [JsNum.isNaN, Bool.not_false, JsNum.gt_fin,
                    JsNum.ge_fin, Bool.true_and]
                  rw [if_pos (by simp [hqb0, hqa0])]
                  exact JsNum.div_fin qa (ne_of_gt hqb0)
                · refine ⟨1, ?_⟩
                  simp [JsNum.isNaN, JsNum.gt_fin, JsNum.ge_fin, hqa0]
              · refine ⟨1, ?_⟩
                simp [JsNum.isNaN, JsNum.gt_fin, JsNum.ge_fin, hqb0]
        · exact ⟨1, parseRatio_colonBad str hc (by rw [hl]; simp only [List.length_cons, List.length_nil]; omega)⟩
  · have hc' : (jsTrim str).data.any (fun c => c == ':') = false :=
      Bool.not_eq_true _ ▸ hc
    rw [parseRatio_noColon str hc']
    rcases jsParseFloat_nan_or_fin (jsTrim str) with hn | ⟨q, hq⟩
    · refine ⟨1, ?_⟩
      rw [hn]
      simp [JsNum.isNaN]
    · rw [hq]
      by_cases h0 : 0 < q
      · exact ⟨q, by simp [JsNum.isNaN, JsNum.gt_fin, h0]⟩
      · exact ⟨1, by simp [JsNum.isNaN, JsNum.gt_fin, h0]⟩

/-- Claim C3: the `ratioInput` case of `updateSpeciesField` stores the raw
input, sets the ratio to `parseRatio` of it, and recomputes
`driedVolume = freshVolume / ratio` guarded against a non-positive ratio;
and `parseRatio` accepts a bare positive number as itself, a colon pair
`a : b` with `b > 0`, `a >= 0` as `a / b`, and falls back to the default
ratio 1 in every other case. -/
theorem claim3_ratio_input_change :
    ∀ (s : SpeciesData) (str : String),
      ((updateSpeciesField s (.ratioInput str)).ratioInput = str) ∧
      ((updateSpeciesField s (.ratioInput str)).freshToDryRatio = parseRatio str) ∧
      (∀ q : ℚ, parseRatio str = .fin q →
        (0 < q →
          (updateSpeciesField s (.ratioInput str)).driedVolume =
            JsNum.div s.freshVolume (.fin q)) ∧
        (q ≤ 0 → (updateSpeciesField s (.ratioInput str)).driedVolume = .fin 0)) ∧
      ((jsTrim str).data.any (fun c => c == ':') = false →
        ∀ q : ℚ, jsParseFloat (jsTrim str) = .fin q → 0 < q →
          parseRatio str = .fin q) ∧
      (∀ a b : List Char, (jsTrim str).data.any (fun c => c == ':') = true →
        splitOnChar ':' (jsTrim str).data = [a, b] →
        ∀ qa qb : ℚ, jsParseFloat (String.mk a) = .fin qa →
          jsParseFloat (String.mk b) = .fin qb → 0 < qb → 0 ≤ qa →
          parseRatio str = .fin (qa / qb)) ∧
      (parseRatio str = .fin 1 ∨
        ((jsTrim str).data.any (fun c => c == ':') = false ∧
          ∃ q : ℚ, 0 < q ∧ jsParseFloat (jsTrim str) = .fin q) ∨
        ((jsTrim str).data.any (fun c => c == ':') = true ∧
          ∃ (a b : List Char) (qa qb : ℚ),
            splitOnChar ':' (jsTrim str).data = [a, b] ∧
            jsParseFloat (String.mk a) = .fin qa ∧
            jsParseFloat (String.mk b) = .fin qb ∧ 0 < qb ∧ 0 ≤ qa)) := by
  intro s str
  refine ⟨rfl, rfl, ?_, ?_, ?_, ?_⟩
  · intro q hq
    refine ⟨fun h0 => ?_, fun h0 => ?_⟩
    · simp only [updateSpeciesField, hq]
      simp [JsNum.gt_fin, h0]
    · have h0' : ¬ (0 < q) := not_lt.mpr h0
      simp only [updateSpeciesField, hq]
      simp [JsNum.gt_fin, h0']
  · intro hc q hq h0
    rw [parseRatio_noColon str hc, hq]
    simp [JsNum.isNaN, JsNum.gt_fin, h0]
  · intro a b hc hl qa qb hqa hqb hqb0 hqa0
    rw [parseRatio_colon2 str a b hc hl, hqa, hqb]
    simp only [JsNum.isNaN, Bool.not_false, Bool.true_and]
    rw [if_pos (by simp [JsNum.gt_fin, JsNum.ge_fin, hqb0, hqa0])]
    exact JsNum.div_fin qa (ne_of_gt hqb0)
  · by_cases hc : (jsTrim str).data.any (fun c => c == ':') = true
    · rcases hl : splitOnChar ':' (jsTrim str).data with _ | ⟨a, rest⟩
      · exact Or.inl (parseRatio_colonBad str hc (by rw [hl]; simp only [List.length_cons, List.length_nil]; omega))
      · rcases rest with _ | ⟨b, rest2⟩
        · exact Or.inl (parseRatio_colonBad str hc (by rw [hl]; simp only [List.length_cons, List.length_nil]; omega))
        · rcases rest2 with _ | ⟨c, rest3⟩
          · rcases jsParseFloat_nan_or_fin (String.mk a) with hna | ⟨qa, hqa⟩
            · refine Or.inl ?_
              rw [parseRatio_colon2 str a b hc hl, hna]
              simp [JsNum.isNaN]
            · rcases jsParseFloat_nan_or_fin (String.mk b) with hnb | ⟨qb, hqb⟩
              · refine Or.inl ?_
                rw [parseRatio_colon2 str a b hc hl, hqa, hnb]
                simp [JsNum.isNaN]
              · by_cases hqb0 : 0 < qb
                · by_cases hqa0 : 0 ≤ qa
                  · exact Or.inr (Or.inr
                      ⟨hc, a, b, qa, qb, rfl, hqa, hqb, hqb0, hqa0⟩)
                  · refine Or.inl ?_
                    rw [parseRatio_colon2 str a b hc hl, hqa, hqb]
                    simp [JsNum.isNaN, JsNum.gt_fin, JsNum.ge_fin, hqa0]
                · refine Or.inl ?_
                  rw [parseRatio_colon2 str a b hc hl, hqa, hqb]
                  simp [JsNum.isNaN, JsNum.gt_fin, JsNum.ge_fin, hqb0]
          · exact Or.inl (parseRatio_colonBad str hc (by rw [hl]; simp only [List.length_cons, List.length_nil]; omega))
    · have hc' : (jsTrim str).data.any (fun c => c == ':') = false :=
        Bool.not_eq_true _ ▸ hc
      rcases jsParseFloat_nan_or_fin (jsTrim str) with hn | ⟨q, hq⟩
      · refine Or.inl ?_
        rw [parseRatio_noColon str hc', hn]
        simp [JsNum.isNaN]
      · by_cases h0 : 0 < q
        · exact Or.inr (Or.inl ⟨hc', q, h0, hq⟩)
        · refine Or.inl ?_
          rw [parseRatio_noColon str hc', hq]
          simp [JsNum.isNaN, JsNum.gt_fin, h0]

/-- Witness for C3 at the spec's example input `7:1`: the stored ratio becomes
`7/1 = 7`. -/
theorem claim3_witness :
    (updateSpeciesField initialSpeciesData (.ratioInput "7:1")).freshToDryRatio =
      .fin 7 := by
  have h := claim3_ratio_input_change initialSpeciesData "7:1"
  have h5 := h.2.2.2.2.1 ['7'] ['1'] (by decide) (by decide) 7 1 (by decide)
    (by decide) (by norm_num) (by norm_num)
  rw [h.2.1, h5]
  norm_num

/-- Claim C4: editing dried weight to a positive value while fresh weight is
positive stores the new dried weight and recomputes the ratio as
`freshWeight / newDried`. -/
theorem claim4_dried_weight_edit :
    ∀ (s : SpeciesData) (v : Value) (f d : ℚ),
      s.freshVolume = .fin f → 0 < f →
      (valueParseFloat v).orDefault (.fin 0) = .fin d → 0 < d →
      (updateSpeciesField s (.driedVolume v)).driedVolume = .fin d ∧
      (updateSpeciesField s (.driedVolume v)).freshToDryRatio = .fin (f / d) := by
  intro s v f d hf h0f hd h0d
  have hg1 : (JsNum.gt (JsNum.fin d) (.fin 0) &&
      JsNum.gt (JsNum.fin f) (.fin 0)) = true := by
    simp [JsNum.gt_fin, h0f, h0d]
  constructor
  · simp only [updateSpeciesField, hd, hf]
    rw [if_pos hg1]
  · simp only [updateSpeciesField, hd, hf]
    rw [if_pos hg1]
    exact JsNum.div_fin f (ne_of_gt h0d)

/-- Witness for C4, running the spec's scenario: fresh weight 100 with ratio
input `5` derives dried weight 20; editing dried weight to 25 recomputes the
ratio to 4. -/
theorem claim4_witness :
    ((updateSpeciesField { initialSpeciesData with freshVolume := .fin 100 }
        (.ratioInput "5")).driedVolume = .fin 20) ∧
    ((updateSpeciesField
        (updateSpeciesField { initialSpeciesData with freshVolume := .fin 100 }
          (.ratioInput "5"))
        (.driedVolume (.str "25"))).freshToDryRatio = .fin 4) := by
  refine ⟨by decide, ?_⟩
  have h := (claim4_dried_weight_edit
    (updateSpeciesField { initialSpeciesData with freshVolume := .fin 100 }
      (.ratioInput "5"))
    (.str "25") 100 25 (by decide) (by norm_num) (by decide) (by norm_num)).2
  rw [h]; norm_num

/-- Counterexample to C5 as stated: on the reachable state `c5state`
(freshWeight 100, driedWeight 0, ratio 5), re-applying the fresh-weight
handler with the state's own current fresh weight changes `driedVolume` from
0 to 20, so the operation is not a no-op on `driedWeight` for every state. -/
theorem claim5_counterexample :
    c5state.freshVolume = .fin 100 ∧
    c5state.driedVolume = .fin 0 ∧
    c5state.freshToDryRatio = .fin 5 ∧
    (updateSpeciesField c5state (.freshVolume (.num c5state.freshVolume))).driedVolume =
      .fin 20 := by
  decide

/-- Claim C5, amended: re-applying the fresh-weight handler with the current
fresh weight never changes the ratio, and it leaves the dried weight unchanged
provided the state is ratio-consistent (dried weight derived from the current
fresh weight and ratio) with a finite fresh weight. -/
theorem claim5_fresh_weight_noop :
    (∀ (s : SpeciesData) (v : Value),
      (updateSpeciesField s (.freshVolume v)).freshToDryRatio =
        s.freshToDryRatio) ∧
    (∀ (s : SpeciesData) (f : ℚ), ratioConsistent s → s.freshVolume = .fin f →
      (updateSpeciesField s (.freshVolume (.num (.fin f)))).driedVolume =
        s.driedVolume) := by
  constructor
  · intro s v
    rfl
  · intro s f hcons hf
    have hnum : (valueParseFloat (Value.num (.fin f))).orDefault (.fin 0) = .fin f := by
      by_cases h : f = 0
      · subst h; simp [valueParseFloat, JsNum.orDefault, JsNum.isFalsy]
      · simp [valueParseFloat, JsNum.orDefault, JsNum.isFalsy, h]
    rw [ratioConsistent] at hcons
    simp only [updateSpeciesField, hnum]
    rw [hcons, hf]

/-- Witness for the amended C5 on a concrete consistent state (fresh 100,
ratio 5, dried 20). -/
theorem claim5_witness :
    (updateSpeciesField
        (updateSpeciesField initialSpeciesData (.freshVolume (.str "100")))
        (.freshVolume (.num (.fin 100)))).driedVolume =
      (updateSpeciesField initialSpeciesData (.freshVolume (.str "100"))).driedVolume := by
  exact claim5_fresh_weight_noop.2
    (updateSpeciesField initialSpeciesData (.freshVolume (.str "100")))
    100 (by rw [ratioConsistent]; decide) (by decide)

/-- Counterexample to C6 as stated: with fresh weight 0 and a positive dried
weight the code stores the JS number `Infinity` in `freshToDryRatio` — the
infinite value is propagated as a number, not as a non-numeric sentinel. -/
theorem claim6_counterexample : c6state.freshToDryRatio = JsNum.inf := by
  decide

/-- Claim C6, amended: with a non-positive finite fresh weight and a positive
dried weight, the stored ratio becomes the JS `Infinity` value; that value is
distinct from every finite ratio and from NaN, and a subsequent fresh-weight
update treats it as invalid (derives dried weight 0) rather than dividing by
it. -/
theorem claim6_infinite_ratio :
    ∀ (s : SpeciesData) (v : Value) (f d : ℚ),
      s.freshVolume = .fin f → f ≤ 0 →
      (valueParseFloat v).orDefault (.fin 0) = .fin d → 0 < d →
      (updateSpeciesField s (.driedVolume v)).freshToDryRatio = JsNum.inf ∧
      (∀ q : ℚ, (updateSpeciesField s (.driedVolume v)).freshToDryRatio ≠ .fin q) ∧
      ((updateSpeciesField s (.driedVolume v)).freshToDryRatio ≠ .nan) ∧
      (∀ w : Value,
        (updateSpeciesField (updateSpeciesField s (.driedVolume v))
          (.freshVolume w)).driedVolume = .fin 0) := by
  intro s v f d hf hle hd h0d
  have hg1 : ¬ ((JsNum.gt (JsNum.fin d) (.fin 0) &&
      JsNum.gt (JsNum.fin f) (.fin 0)) = true) := by
    simp [JsNum.gt_fin, not_lt.mpr hle]
  have hg2 : (JsNum.gt (JsNum.fin d) (.fin 0) &&
      JsNum.le (JsNum.fin f) (.fin 0)) = true := by
    simp [JsNum.gt_fin, JsNum.le_fin, h0d, hle]
  have hratio : (updateSpeciesField s (.driedVolume v)).freshToDryRatio = JsNum.inf := by
    simp only [updateSpeciesField, hd, hf]
    rw [if_neg hg1, if_pos hg2]
  refine ⟨hratio, ?_, ?_, ?_⟩
  · intro q
    rw [hratio]
    simp
  · rw [hratio]
    simp
  · intro w
    have hproj : (updateSpeciesField (updateSpeciesField s (.driedVolume v))
        (.freshVolume w)).driedVolume =
        if JsNum.gt (updateSpeciesField s (.driedVolume v)).freshToDryRatio (.fin 0) &&
            !decide ((updateSpeciesField s
              (.driedVolume v)).freshToDryRatio = JsNum.inf) then
          JsNum.div ((valueParseFloat w).orDefault (.fin 0))
            (updateSpeciesField s (.driedVolume v)).freshToDryRatio
        else .fin 0 := rfl
    rw [hproj, hratio]
    simp [JsNum.gt, JsNum.lt]

/-- Witness for the amended C6 at the concrete scenario behind `c6state`. -/
theorem claim6_witness :
    c6state.freshToDryRatio = JsNum.inf ∧
    (updateSpeciesField c6state (.freshVolume (.str "50"))).driedVolume = .fin 0 := by
  have h := claim6_infinite_ratio initialSpeciesData (.str "7") 0 7
    (by decide) (by norm_num) (by decide) (by norm_num)
  exact ⟨h.1, h.2.2.2 (.str "50")⟩

/-- Claim C7: editing dried weight to 0 is total in this model (the embedding
is a total function, mirroring that the handler throws no exception) and never
leaves the ratio equal to NaN — the ratio is recomputed from the stored
textual ratio input, whose parse is always finite. -/
theorem claim7_dried_zero_safe :
    ∀ s : SpeciesData,
      (updateSpeciesField s (.driedVolume (.num (.fin 0)))).freshToDryRatio ≠
        JsNum.nan := by
  intro s
  have hnum : (valueParseFloat (Value.num (.fin 0))).orDefault (.fin 0) = .fin 0 := by
    simp [valueParseFloat, JsNum.orDefault, JsNum.isFalsy]
  have hg1 : ∀ w : JsNum, ¬ ((JsNum.gt (JsNum.fin 0) (.fin 0) &&
      JsNum.gt w (.fin 0)) = true) := by
    intro w; simp [JsNum.gt_fin]
  have hg2 : ∀ w : JsNum, ¬ ((JsNum.gt (JsNum.fin 0) (.fin 0) &&
      JsNum.le w (.fin 0)) = true) := by
    intro w; simp [JsNum.gt_fin]
  have hg3 : JsNum.le (JsNum.fin 0) (JsNum.fin 0) = true := by
    simp [JsNum.le_fin]
  simp only [updateSpeciesField, hnum]
  rw [if_neg (hg1 s.freshVolume), if_neg (hg2 s.freshVolume), if_pos hg3]
  obtain ⟨q, hq⟩ := parseRatio_fin s.ratioInput
  rw [hq]
  simp

/-- Witness for C7 at the initial row: editing dried weight to 0 leaves a
non-NaN ratio. -/
theorem claim7_witness :
    (updateSpeciesField initialSpeciesData
        (.driedVolume (.num (.fin 0)))).freshToDryRatio ≠ JsNum.nan :=
  claim7_dried_zero_safe initialSpeciesData

/-- Claim C10: editing dried weight to a non-positive parsed value (including
non-numeric input, which normalizes to 0) stores that value as the dried
weight, recomputes the ratio from the stored textual ratio input via
`parseRatio`, and leaves the textual ratio input itself unchanged. -/
theorem claim10_dried_nonpositive :
    ∀ (s : SpeciesData) (v : Value) (d : ℚ),
      (valueParseFloat v).orDefault (.fin 0) = .fin d → d ≤ 0 →
      (updateSpeciesField s (.driedVolume v)).driedVolume = .fin d ∧
      (updateSpeciesField s (.driedVolume v)).freshToDryRatio =
        parseRatio s.ratioInput ∧
      (updateSpeciesField s (.driedVolume v)).ratioInput = s.ratioInput := by
  intro s v d hd hle
  have hg1 : ∀ w : JsNum, ¬ ((JsNum.gt (JsNum.fin d) (.fin 0) &&
      JsNum.gt w (.fin 0)) = true) := by
    intro w; simp [JsNum.gt_fin, not_lt.mpr hle]
  have hg2 : ∀ w : JsNum, ¬ ((JsNum.gt (JsNum.fin d) (.fin 0) &&
      JsNum.le w (.fin 0)) = true) := by
    intro w; simp [JsNum.gt_fin, not_lt.mpr hle]
  have hg3 : JsNum.le (JsNum.fin d) (JsNum.fin 0) = true := by
    simp [JsNum.le_fin, hle]
  refine ⟨?_, ?_, ?_⟩ <;>
  · simp only [updateSpeciesField, hd]
    rw [if_neg (hg1 s.freshVolume), if_neg (hg2 s.freshVolume), if_pos hg3]

/-- Witness for C10: non-numeric dried-weight input `abc` on the initial row
normalizes to 0, keeps `ratioInput = "5"`, and recomputes the ratio from it
(`parseRatio "5" = 5`). -/
theorem claim10_witness :
    (updateSpeciesField initialSpeciesData (.driedVolume (.str "abc"))).driedVolume =
      .fin 0 ∧
    (updateSpeciesField initialSpeciesData
        (.driedVolume (.str "abc"))).freshToDryRatio = .fin 5 ∧
    (updateSpeciesField initialSpeciesData (.driedVolume (.str "abc"))).ratioInput =
      "5" := by
  have h := claim10_dried_nonpositive initialSpeciesData (.str "abc") 0
    (by decide) (by norm_num)
  refine ⟨h.1, ?_, h.2.2⟩
  rw [h.2.1]
  decide

/-- `parseInt(String(value), 10)` never produces an infinity: NaN or finite. -/
theorem valueParseInt_nan_or_fin (v : Value) :
    valueParseInt v = .nan ∨ ∃ q : ℚ, valueParseInt v = .fin q := by
  rcases v with s | n
  · simp only [valueParseInt, jsParseInt]
    split
    · exact Or.inl rfl
    · exact Or.inr ⟨_, rfl⟩
  · rcases n with _ | _ | _ | q
    · exact Or.inl rfl
    · exact Or.inl rfl
    · exact Or.inl rfl
    · exact Or.inr ⟨_, rfl⟩

/-- The `parseInt(String(value), 10) || 0` composite always lands on a finite
value. -/
theorem parseIntOr_fin (v : Value) :
    ∃ k : ℚ, (valueParseInt v).orDefault (.fin 0) = .fin k := by
  rcases valueParseInt_nan_or_fin v with h | ⟨q, h⟩
  · exact ⟨0, by rw [h]; rfl⟩
  · rw [h]
    by_cases hq : q = 0
    · subst hq
      exact ⟨0, rfl⟩
    · exact ⟨q, JsNum.orDefault_fin _ hq⟩

/-- Claim C8: every species state reachable through the update path satisfies
the clamped frequency invariant (`value >= 1`, `everyX >= 1`,
`1 <= activeMonths <= 12`); out-of-range input is clamped rather than
rejected, and in particular any months input parsing to at least 12 is
clamped to exactly 12 by the update itself, before any occurrence computation
reads it. -/
theorem claim8_clamped_invariant :
    (∀ s : SpeciesData, Reachable s → freqInvariant s) ∧
    (∀ (s : SpeciesData) (v : Value) (n : ℚ),
      (valueParseInt v).orDefault (.fin 0) = .fin n → 12 ≤ n →
      (updateSpeciesField s (.monthsMarked v)).monthsMarked = .fin 12) := by
  constructor
  · intro s h
    induction h with
    | init =>
        exact ⟨⟨2, rfl, by norm_num⟩, ⟨1, rfl, by norm_num⟩,
          ⟨12, rfl, by norm_num, by norm_num⟩⟩
    | step s' f hs ih =>
        obtain ⟨⟨v, hv, h1v⟩, ⟨x, hx, h1x⟩, ⟨m, hm, h1m, h12m⟩⟩ := ih
        cases f with
        | frequencyValue w =>
            obtain ⟨k, hk⟩ := parseIntOr_fin w
            refine ⟨⟨Max.max 1 k, ?_, le_max_left 1 k⟩, ⟨x, hx, h1x⟩,
              ⟨m, hm, h1m, h12m⟩⟩
            show JsNum.max (.fin 1) ((valueParseInt w).orDefault (.fin 0)) =
              .fin (Max.max 1 k)
            rw [hk, JsNum.max_fin]
        | everyXValue w =>
            obtain ⟨k, hk⟩ := parseIntOr_fin w
            refine ⟨⟨v, hv, h1v⟩, ⟨Max.max 1 k, ?_, le_max_left 1 k⟩,
              ⟨m, hm, h1m, h12m⟩⟩
            show JsNum.max (.fin 1) ((valueParseInt w).orDefault (.fin 0)) =
              .fin (Max.max 1 k)
            rw [hk, JsNum.max_fin]
        | monthsMarked w =>
            obtain ⟨k, hk⟩ := parseIntOr_fin w
            refine ⟨⟨v, hv, h1v⟩, ⟨x, hx, h1x⟩,
              ⟨Max.max 1 (Min.min 12 k), ?_, le_max_left _ _,
                max_le (by norm_num) (min_le_left _ _)⟩⟩
            show JsNum.max (.fin 1)
              (JsNum.min (.fin 12) ((valueParseInt w).orDefault (.fin 0))) =
              .fin (Max.max 1 (Min.min 12 k))
            rw [hk, JsNum.min_fin, JsNum.max_fin]
        | driedVolume w =>
            refine ⟨⟨v, ?_, h1v⟩, ⟨x, ?_, h1x⟩, ⟨m, ?_, h1m, h12m⟩⟩ <;>
            · simp only [updateSpeciesField]
              split
              · assumption
              · split
                · assumption
                · split
                  · assumption
                  · assumption
        | frequencyType w => exact ⟨⟨v, hv, h1v⟩, ⟨x, hx, h1x⟩, ⟨m, hm, h1m, h12m⟩⟩
        | freshVolume w => exact ⟨⟨v, hv, h1v⟩, ⟨x, hx, h1x⟩, ⟨m, hm, h1m, h12m⟩⟩
        | ratioInput w => exact ⟨⟨v, hv, h1v⟩, ⟨x, hx, h1x⟩, ⟨m, hm, h1m, h12m⟩⟩
        | freshPrice w => exact ⟨⟨v, hv, h1v⟩, ⟨x, hx, h1x⟩, ⟨m, hm, h1m, h12m⟩⟩
        | driedPrice w => exact ⟨⟨v, hv, h1v⟩, ⟨x, hx, h1x⟩, ⟨m, hm, h1m, h12m⟩⟩
        | consumedVolume w => exact ⟨⟨v, hv, h1v⟩, ⟨x, hx, h1x⟩, ⟨m, hm, h1m, h12m⟩⟩
        | processedVolume w => exact ⟨⟨v, hv, h1v⟩, ⟨x, hx, h1x⟩, ⟨m, hm, h1m, h12m⟩⟩
        | name w => exact ⟨⟨v, hv, h1v⟩, ⟨x, hx, h1x⟩, ⟨m, hm, h1m, h12m⟩⟩
  · intro s v n hn h12
    show JsNum.max (.fin 1)
      (JsNum.min (.fin 12) ((valueParseInt v).orDefault (.fin 0))) = .fin 12
    rw [hn, JsNum.min_fin, JsNum.max_fin, min_eq_left h12,
      max_eq_right (by norm_num : (1 : ℚ) ≤ 12)]

/-- Witness for C8: the spec's scenario — a months input of `15` is clamped to
12 by the update path, and the resulting reachable state satisfies the
invariant. -/
theorem claim8_witness :
    (updateSpeciesField initialSpeciesData (.monthsMarked (.str "15"))).monthsMarked =
      .fin 12 ∧
    freqInvariant (updateSpeciesField initialSpeciesData (.monthsMarked (.str "15"))) := by
  constructor
  · exact claim8_clamped_invariant.2 initialSpeciesData (.str "15") 15
      (by decide) (by norm_num)
  · exact claim8_clamped_invariant.1 _
      (Reachable.step initialSpeciesData (.monthsMarked (.str "15")) Reachable.init)

/-- Claim C9: the three embedded annualization formulas are divergent, not
equivalent.  On the clamped input (every 2 months, 6 active months)
`annualIncome.tsx` floors to 3 while `fisheriestForm.tsx` returns the 6 marked
months; on (every 4 months, 6 active months) `annualIncome.tsx` floors to 1
while the `part_000` component ceils to 2; and on (every 5 weeks, 1 active
month) `annualIncome.tsx` returns 0 under its minimum-threshold guard with
weeks-per-month `52/12`, while `part_000` ceils to 1 with weeks-per-month
4.33. -/
theorem claim9_variant_divergence :
    calculateAnnualSales claim9specA = .fin 3 ∧
    fisheriesTotalTimes .everyXMonths 1 2 6 = 6 ∧
    calculateAnnualSales claim9specA ≠ .fin (fisheriesTotalTimes .everyXMonths 1 2 6) ∧
    calculateAnnualSales claim9specB = .fin 1 ∧
    scheduleTotalTimes .everyXMonths 1 4 6 = 2 ∧
    calculateAnnualSales claim9specB ≠ .fin (scheduleTotalTimes .everyXMonths 1 4 6) ∧
    calculateAnnualSales claim9specC = .fin 0 ∧
    scheduleTotalTimes .everyXWeeks 1 5 1 = 1 ∧
    calculateAnnualSales claim9specC ≠ .fin (scheduleTotalTimes .everyXWeeks 1 5 1) := by
  have hA : calculateAnnualSales claim9specA = .fin 3 := by decide
  have hB : calculateAnnualSales claim9specB = .fin 1 := by decide
  have hC : calculateAnnualSales claim9specC = .fin 0 := by decide
  have hFA : fisheriesTotalTimes .everyXMonths 1 2 6 = 6 := by
    simp [fisheriesTotalTimes]
  have hSB : scheduleTotalTimes .everyXMonths 1 4 6 = 2 := by
    have hc : (⌈(6 : ℚ) / 4⌉ : ℤ) = 2 := by
      rw [Int.ceil_eq_iff]
      constructor <;> norm_num
    simp only [scheduleTotalTimes, hc]
    norm_num
  have hSC : scheduleTotalTimes .everyXWeeks 1 5 1 = 1 := by
    have hc : (⌈(1 : ℚ) * scheduleWeeksPerMonth / 5⌉ : ℤ) = 1 := by
      rw [scheduleWeeksPerMonth, Int.ceil_eq_iff]
      constructor <;> norm_num
    simp only [scheduleTotalTimes, hc]
    norm_num
  refine ⟨hA, hFA, ?_, hB, hSB, ?_, hC, hSC, ?_⟩
  · rw [hA, hFA]; decide
  · rw [hB, hSB]; decide
  · rw [hC, hSC]; decide


